import Mathlib

/-!
Verification of the reconciliation-and-dispatch engine of the gmail-assistant
repository: the durable job store (src/db/models.py, JobRepository), the worker
pool outcome logic (src/tasks/workers.py), the change-feed reader
(src/sync/engine.py, src/gmail/models.py), and the per-conversation lifecycle
state machine (src/lifecycle/manager.py, src/draft/engine.py,
src/draft/prompts.py).  Each Python function is embedded shallowly as an
executable Lean function over explicit state; SQL statements become pure
transformers of a list of rows.
-/

namespace GA

/-- Job status values of the jobs table: pending, running, completed, failed. -/
inductive JobStatus
  | pending
  | running
  | completed
  | failed
deriving DecidableEq, Repr

/-- Job payload fields used by the engine (the source stores payload as a JSON
document; these are the keys it reads and writes). -/
structure Payload where
  message_id : Option String := none
  thread_id : Option String := none
  action : Option String := none
  profile : Option String := none
  route_rule : Option String := none
  history_id : Option String := none
deriving DecidableEq, Repr

/-- A row of the jobs table (src/db/models.py, dataclass Job).  Timestamps are
modelled as natural numbers. -/
structure Job where
  id : Nat
  job_type : String
  user_id : Nat
  payload : Payload := {}
  status : JobStatus := .pending
  attempts : Nat := 0
  max_attempts : Nat := 3
  error_message : Option String := none
  created_at : Nat := 0
  started_at : Option Nat := none
  completed_at : Option Nat := none
deriving DecidableEq, Repr

/-- The jobs table plus the autoincrement rowid counter. -/
structure Store where
  jobs : List Job
  next_id : Nat
deriving DecidableEq, Repr

/-- JobRepository.enqueue: INSERT a fresh pending row, returning its id. -/
def Store.enqueue (s : Store) (job_type : String) (user_id : Nat)
    (payload : Payload) (now : Nat) : Store × Nat :=
  let j : Job := { id := s.next_id, job_type := job_type, user_id := user_id,
                   payload := payload, status := .pending, attempts := 0,
                   max_attempts := 3, error_message := none, created_at := now,
                   started_at := none, completed_at := none }
  ({ jobs := s.jobs ++ [j], next_id := s.next_id + 1 }, s.next_id)

/-- The WHERE clause of JobRepository.claim_next:
status = pending AND attempts < max_attempts, optionally AND job_type = t. -/
def claimMatches (t? : Option String) (j : Job) : Bool :=
  decide (j.status = .pending) && decide (j.attempts < j.max_attempts) &&
    (match t? with
     | none => true
     | some t => decide (j.job_type = t))

/-- The subselect of claim_next: the matching row with least created_at
(ORDER BY created_at LIMIT 1; earlier rowid wins ties). -/
def selectClaim (t? : Option String) : List Job → Option Job
  | [] => none
  | j :: rest =>
    let r := selectClaim t? rest
    if claimMatches t? j then
      match r with
      | none => some j
      | some b => if j.created_at ≤ b.created_at then some j else some b
    else r

/-- JobRepository.claim_next: one UPDATE ... RETURNING statement that selects
the oldest eligible pending row, marks it running, increments attempts and sets
started_at, returning the updated row.  Being a single SQL statement it is
atomic with respect to concurrent callers, so the function below is the whole
operation. -/
def Store.claim_next (s : Store) (t? : Option String) (now : Nat) :
    Option Job × Store :=
  match selectClaim t? s.jobs with
  | none => (none, s)
  | some j =>
    let claimed : Job :=
      { j with status := .running, attempts := j.attempts + 1,
               started_at := some now }
    (some claimed,
     { s with jobs := s.jobs.map (fun k => if k.id = j.id then claimed else k) })

/-- JobRepository.complete: UPDATE jobs SET status = completed,
completed_at = now WHERE id = job_id (no guard on the current status). -/
def Store.complete (s : Store) (job_id : Nat) (now : Nat) : Store :=
  { s with jobs := s.jobs.map (fun j =>
      if j.id = job_id then
        { j with status := .completed, completed_at := some now }
      else j) }

/-- JobRepository.fail: UPDATE jobs SET status = failed, error_message,
completed_at WHERE id = job_id. -/
def Store.fail (s : Store) (job_id : Nat) (error : String) (now : Nat) : Store :=
  { s with jobs := s.jobs.map (fun j =>
      if j.id = job_id then
        { j with status := .failed, error_message := some error,
                 completed_at := some now }
      else j) }

/-- JobRepository.retry: UPDATE jobs SET status = pending, error_message
WHERE id = job_id (attempts preserved). -/
def Store.retry (s : Store) (job_id : Nat) (error : String) : Store :=
  { s with jobs := s.jobs.map (fun j =>
      if j.id = job_id then
        { j with status := .pending, error_message := some error }
      else j) }

/-- Outcome of executing one job handler: it returns normally or raises. -/
inductive HandlerOutcome
  | success
  | raises (msg : String)
deriving DecidableEq, Repr

/-- The job types WorkerPool._process_job dispatches on. -/
def knownJobTypes : List String :=
  ["sync", "classify", "draft", "cleanup", "rework", "manual_draft",
   "agent_process"]

/-- WorkerPool._process_job outcome logic (src/tasks/workers.py lines 102-145):
if the owner user is missing, fail immediately; if the job type is unknown,
fail immediately; otherwise run the handler and on success complete, on an
exception retry when attempts < max_attempts else fail. -/
def processJob (userExists : Bool) (outcome : HandlerOutcome) (job : Job)
    (now : Nat) (s : Store) : Store :=
  if !userExists then
    s.fail job.id "User not found" now
  else if !(knownJobTypes.contains job.job_type) then
    s.fail job.id "Unknown job type" now
  else
    match outcome with
    | .success => s.complete job.id now
    | .raises msg =>
      if job.attempts < job.max_attempts then s.retry job.id msg
      else s.fail job.id msg now

/-- One parameter per claim_next call: the optional type filter and the
timestamp. -/
def runClaims : List (Option String × Nat) → Store → List Job × Store
  | [], s => ([], s)
  | p :: ps, s =>
    match s.claim_next p.1 p.2 with
    | (none, s1) => runClaims ps s1
    | (some c, s1) =>
      let r := runClaims ps s1
      (c :: r.1, r.2)

/-- A Gmail message as parsed by Message.from_api (src/gmail/models.py): the
fields the sync engine reads. -/
structure GMessage where
  id : String
  thread_id : String
  sender_email : String := ""
  subject : String := ""
  body : String := ""
  label_ids : List String := []
deriving DecidableEq, Repr

/-- One entry of HistoryRecord.labels_added / labels_removed.  In the source
this is a plain dict; thread_id is Option because the code reads it with
item.get("thread_id", msg_id). -/
structure LabelChangeItem where
  message_id : String
  label_ids : List String
  thread_id : Option String := none
deriving DecidableEq, Repr

/-- A parsed history record (src/gmail/models.py, dataclass HistoryRecord). -/
structure HistoryRecord where
  id : String
  messages_added : List GMessage := []
  messages_deleted : List String := []
  labels_added : List LabelChangeItem := []
  labels_removed : List LabelChangeItem := []
deriving DecidableEq, Repr

/-- A raw labelsAdded API item: the nested message resource carries both the
message id and its threadId, plus the labelIds list. -/
structure ApiLabelItem where
  message_id : String
  message_thread_id : String
  label_ids : List String
deriving DecidableEq, Repr

/-- A raw Gmail history API resource, already shaped into the parts
HistoryRecord.from_api reads. -/
structure ApiHistory where
  id : String
  messages_added : List GMessage := []
  messages_deleted_ids : List String := []
  labels_added : List ApiLabelItem := []
  labels_removed : List ApiLabelItem := []
deriving DecidableEq, Repr

/-- HistoryRecord.from_api (src/gmail/models.py lines 145-171).  The
labels_added entries are built as dicts with only the keys message_id and
label_ids: the threadId of the nested message resource is dropped, so the
resulting item has thread_id = none. -/
def HistoryRecord.from_api (d : ApiHistory) : HistoryRecord :=
  { id := d.id,
    messages_added := d.messages_added,
    messages_deleted := d.messages_deleted_ids,
    labels_added := d.labels_added.map (fun it =>
      { message_id := it.message_id, label_ids := it.label_ids }),
    labels_removed := d.labels_removed.map (fun it =>
      { message_id := it.message_id, label_ids := it.label_ids }) }

/-- Router.route result (src/routing/router.py): the route name and, for the
agent route, the profile and rule names. -/
structure RouteDecision where
  route_name : String
  profile_name : Option String := none
  rule_name : Option String := none
deriving DecidableEq, Repr

/-- SyncResult counters (src/sync/engine.py, dataclass SyncResult). -/
structure SyncResult where
  new_messages : Nat := 0
  label_changes : Nat := 0
  deletions : Nat := 0
  jobs_queued : Nat := 0
deriving DecidableEq, Repr

/-- Mutable state threaded through one feed-processing call: the job store,
the in-memory seen_jobs dedup set, the result counters, and a count of
enqueue writes performed so far (used to model a failing write). -/
structure SyncSt where
  store : Store
  seen : List (String × String) := []
  result : SyncResult := {}
  wix : Nat := 0
deriving DecidableEq, Repr

/-- One jobs.enqueue call inside the sync engine.  failAt = some n makes the
n-th write raise (modelling a transient store failure); the error value
carries the state as it stands when the exception propagates. -/
def enq (failAt : Option Nat) (job_type : String) (uid : Nat) (p : Payload)
    (now : Nat) (st : SyncSt) : Except SyncSt SyncSt :=
  if failAt = some st.wix then
    .error { st with wix := st.wix + 1 }
  else
    .ok { st with store := (st.store.enqueue job_type uid p now).1,
                  wix := st.wix + 1 }

/-- Dict lookup on the label_ids mapping (label key to Gmail label id). -/
def lookupLabel (m : List (String × String)) (key : String) : Option String :=
  (m.find? (fun kv => kv.1 = key)).map Prod.snd

/-- Whether an Option label id is present in an item's label list (the
`done_label and done_label in added_labels` test). -/
def labelHit (lbl : Option String) (added : List String) : Bool :=
  match lbl with
  | none => false
  | some l => added.contains l

/-- The messages_added loop of SyncEngine._process_history_record
(src/sync/engine.py lines 160-188): route each INBOX message, dedup on
(job_type, thread_id), enqueue. -/
def processMessagesAdded (failAt : Option Nat)
    (router : Option (GMessage → RouteDecision)) (uid now : Nat) :
    List GMessage → SyncSt → Except SyncSt SyncSt
  | [], st => .ok st
  | msg :: rest, st =>
    if msg.label_ids.contains "INBOX" then
      let jp : String × Payload :=
        match router with
        | none =>
          ("classify",
           { message_id := some msg.id, thread_id := some msg.thread_id })
        | some r =>
          let d := r msg
          if d.route_name = "agent" then
            ("agent_process",
             { message_id := some msg.id, thread_id := some msg.thread_id,
               profile := d.profile_name, route_rule := d.rule_name })
          else
            ("classify",
             { message_id := some msg.id, thread_id := some msg.thread_id })
      let key := (jp.1, msg.thread_id)
      if st.seen.contains key then
        processMessagesAdded failAt router uid now rest st
      else
        match enq failAt jp.1 uid jp.2 now { st with seen := key :: st.seen } with
        | .error e => .error e
        | .ok st1 =>
          processMessagesAdded failAt router uid now rest
            { st1 with result :=
                { st1.result with
                    new_messages := st1.result.new_messages + 1,
                    jobs_queued := st1.result.jobs_queued + 1 } }
    else
      processMessagesAdded failAt router uid now rest st

/-- One of the three label blocks of the labels_added loop: if the label
matched, dedup on the given key, enqueue the given job, and bump the
label_changes counters.  The Bool result is true when the Python `continue`
fires (dedup hit), skipping the remaining blocks of this item. -/
def labelBlock (failAt : Option Nat) (uid now : Nat) (matched : Bool)
    (key : String × String) (job_type : String) (p : Payload) (st : SyncSt) :
    Except SyncSt (SyncSt × Bool) :=
  if matched then
    if st.seen.contains key then .ok (st, true)
    else
      match enq failAt job_type uid p now { st with seen := key :: st.seen } with
      | .error e => .error e
      | .ok st1 =>
        .ok ({ st1 with result :=
                 { st1.result with
                     label_changes := st1.result.label_changes + 1,
                     jobs_queued := st1.result.jobs_queued + 1 } }, false)
  else .ok (st, false)

/-- The labels_added loop of SyncEngine._process_history_record
(src/sync/engine.py lines 192-225): per item, the done / rework /
needs_response blocks in order, with thread_id = item.get("thread_id", msg_id). -/
def processLabelsAdded (failAt : Option Nat) (uid now : Nat)
    (done_label rework_label needs_response_label : Option String) :
    List LabelChangeItem → SyncSt → Except SyncSt SyncSt
  | [], st => .ok st
  | item :: rest, st =>
    let msg_id := item.message_id
    let thread_id := item.thread_id.getD msg_id
    match labelBlock failAt uid now (labelHit done_label item.label_ids)
        ("cleanup_done", thread_id) "cleanup"
        { message_id := some msg_id, thread_id := some thread_id,
          action := some "done" } st with
    | .error e => .error e
    | .ok (st1, true) =>
      processLabelsAdded failAt uid now done_label rework_label
        needs_response_label rest st1
    | .ok (st1, false) =>
      match labelBlock failAt uid now (labelHit rework_label item.label_ids)
          ("rework", thread_id) "rework" { message_id := some msg_id } st1 with
      | .error e => .error e
      | .ok (st2, true) =>
        processLabelsAdded failAt uid now done_label rework_label
          needs_response_label rest st2
      | .ok (st2, false) =>
        match labelBlock failAt uid now
            (labelHit needs_response_label item.label_ids)
            ("manual_draft", thread_id) "manual_draft"
            { message_id := some msg_id } st2 with
        | .error e => .error e
        | .ok (st3, _) =>
          processLabelsAdded failAt uid now done_label rework_label
            needs_response_label rest st3

/-- The messages_deleted loop of SyncEngine._process_history_record
(src/sync/engine.py lines 228-231): enqueue cleanup check_sent per deleted
message, unconditionally, with no dedup key. -/
def processDeleted (failAt : Option Nat) (uid now : Nat) :
    List String → SyncSt → Except SyncSt SyncSt
  | [], st => .ok st
  | mid :: rest, st =>
    match enq failAt "cleanup" uid
        { message_id := some mid, action := some "check_sent" } now st with
    | .error e => .error e
    | .ok st1 =>
      processDeleted failAt uid now rest
        { st1 with result :=
            { st1.result with deletions := st1.result.deletions + 1,
                              jobs_queued := st1.result.jobs_queued + 1 } }

/-- SyncEngine._process_history_record: the three loops in source order. -/
def processHistoryRecord (failAt : Option Nat)
    (router : Option (GMessage → RouteDecision))
    (label_ids : List (String × String)) (uid now : Nat)
    (record : HistoryRecord) (st : SyncSt) : Except SyncSt SyncSt :=
  match processMessagesAdded failAt router uid now record.messages_added st with
  | .error e => .error e
  | .ok st1 =>
    match processLabelsAdded failAt uid now (lookupLabel label_ids "done")
        (lookupLabel label_ids "rework")
        (lookupLabel label_ids "needs_response") record.labels_added st1 with
    | .error e => .error e
    | .ok st2 => processDeleted failAt uid now record.messages_deleted st2

/-- The record loop of SyncEngine.sync_user (lines 86-87): one shared
seen_jobs set across the whole batch. -/
def processRecords (failAt : Option Nat)
    (router : Option (GMessage → RouteDecision))
    (label_ids : List (String × String)) (uid now : Nat) :
    List HistoryRecord → SyncSt → Except SyncSt SyncSt
  | [], st => .ok st
  | r :: rest, st =>
    match processHistoryRecord failAt router label_ids uid now r st with
    | .error e => .error e
    | .ok st1 => processRecords failAt router label_ids uid now rest st1

/-- The batch processing with no write failures, as run by a healthy store
(failAt = none never errors; on the unreachable error branch the partial
state is returned). -/
def process_records (router : Option (GMessage → RouteDecision))
    (label_ids : List (String × String)) (uid now : Nat)
    (records : List HistoryRecord) (store : Store) : SyncSt :=
  match processRecords none router label_ids uid now records
      { store := store } with
  | .ok st => st
  | .error st => st

/-- The incremental branch of SyncEngine.sync_user (src/sync/engine.py lines
73-98), taken when a sync_state row with last_history_id exists and force_full
is false.  fetch is the gmail_client.list_history call (Except models the
call raising).  Returns the job store, the stored cursor after the call, and
the error if one propagated.  The sync_state.upsert of the new history id is
the last statement, after the whole record loop. -/
def sync_user_incremental (fetch : Except String (List HistoryRecord))
    (failAt : Option Nat) (router : Option (GMessage → RouteDecision))
    (label_ids : List (String × String)) (uid : Nat)
    (notified : Option String) (last_history_id : String) (now : Nat)
    (store : Store) : Store × String × Option String :=
  match fetch with
  | .error e => (store, last_history_id, some e)
  | .ok records =>
    if records.isEmpty then
      (store, notified.getD last_history_id, none)
    else
      match processRecords failAt router label_ids uid now records
          { store := store } with
      | .error st => (st.store, last_history_id, some "enqueue failed")
      | .ok st =>
        (st.store,
         notified.getD ((records.getLast?.map HistoryRecord.id).getD
           last_history_id),
         none)

/-- A row of the emails table (src/db/models.py, dataclass EmailRecord):
the fields the lifecycle manager and the sync engine read. -/
structure EmailRecord where
  user_id : Nat
  gmail_thread_id : String
  gmail_message_id : String := ""
  sender_email : String := ""
  sender_name : String := ""
  subject : String := ""
  status : String := "pending"
  draft_id : Option String := none
  rework_count : Nat := 0
  last_rework_instruction : Option String := none
  resolved_style : String := "business"
  message_count : Nat := 1
deriving DecidableEq, Repr

/-- EmailRepository.get_by_thread: SELECT by user_id and gmail_thread_id. -/
def get_by_thread (emails : List EmailRecord) (uid : Nat) (tid : String) :
    Option EmailRecord :=
  emails.find? (fun e =>
    decide (e.user_id = uid) && decide (e.gmail_thread_id = tid))

/-- EmailRepository.update_status: UPDATE emails SET status WHERE user_id
AND gmail_thread_id. -/
def update_status (emails : List EmailRecord) (uid : Nat) (tid : String)
    (status : String) : List EmailRecord :=
  emails.map (fun e =>
    if e.user_id = uid ∧ e.gmail_thread_id = tid then
      { e with status := status }
    else e)

/-- EmailRepository.increment_rework (src/db/models.py lines 328-337):
rework_count + 1, new draft_id, last instruction, status drafted. -/
def increment_rework (emails : List EmailRecord) (uid : Nat) (tid : String)
    (draft_id : String) (instruction : String) : List EmailRecord :=
  emails.map (fun e =>
    if e.user_id = uid ∧ e.gmail_thread_id = tid then
      { e with rework_count := e.rework_count + 1,
               draft_id := some draft_id,
               last_rework_instruction := some instruction,
               status := "drafted" }
    else e)

/-- Modelled from the spec: JobRepository.has_pending_for_thread is invoked by
SyncEngine.full_sync (src/sync/engine.py line 127) and stubbed by the
integration tests, but its implementation is absent from src/db/models.py.
Per the spec it reports whether the thread "already has ... an existing
pending job of type classify for that thread". -/
def has_pending_for_thread (job_type : String) (uid : Nat) (tid : String)
    (jobs : List Job) : Bool :=
  jobs.any (fun j =>
    decide (j.job_type = job_type) && decide (j.user_id = uid) &&
    decide (j.payload.thread_id = some tid) &&
    decide (j.status = JobStatus.pending))

/-- The message loop of SyncEngine.full_sync (src/sync/engine.py lines
122-135): skip threads that already have a conversation record or a pending
classify job, enqueue classify for the rest. -/
def fullSyncLoop (uid now : Nat) (emails : List EmailRecord) :
    List GMessage → Store → SyncResult → Store × SyncResult
  | [], st, res => (st, res)
  | msg :: rest, st, res =>
    if (get_by_thread emails uid msg.thread_id).isSome then
      fullSyncLoop uid now emails rest st res
    else if has_pending_for_thread "classify" uid msg.thread_id st.jobs then
      fullSyncLoop uid now emails rest st res
    else
      fullSyncLoop uid now emails rest
        (st.enqueue "classify" uid
          { message_id := some msg.id, thread_id := some msg.thread_id } now).1
        { res with new_messages := res.new_messages + 1,
                   jobs_queued := res.jobs_queued + 1 }

/-- SyncEngine.full_sync (src/sync/engine.py lines 100-143): messages is the
result of the exclusion-query search; profile_history_id is the provider head
position the cursor is reset to afterwards. -/
def full_sync (uid : Nat) (messages : List GMessage)
    (profile_history_id : String) (now : Nat) (emails : List EmailRecord)
    (store : Store) : Store × String × SyncResult :=
  let r := fullSyncLoop uid now emails messages store {}
  (r.1, profile_history_id, r.2)

/-- The rework marker constant (src/draft/prompts.py). -/
def REWORK_MARKER : String := "✂️"

/-- wrap_draft_with_marker: prepend the rework marker to a draft body. -/
def wrap_draft_with_marker (draft_body : String) : String :=
  "\n\n" ++ REWORK_MARKER ++ "\n\n" ++ draft_body

/-- extract_rework_instruction (src/draft/prompts.py): instruction above the
marker and draft below it; Python str.split(marker, 1) is the first part and
the remainder rejoined. -/
def extract_rework_instruction (draft_body : String) : String × String :=
  let parts := draft_body.splitOn REWORK_MARKER
  if parts.length ≤ 1 then ("", draft_body)
  else ((parts.headD "").trim,
        (String.intercalate REWORK_MARKER parts.tail).trim)

/-- The warning DraftEngine.rework_draft prepends on the last allowed rework. -/
def finalReworkNotice : String :=
  "⚠️ This is the last automatic rework. Further changes must be made manually.\n\n"

/-- DraftEngine.rework_draft (src/draft/engine.py lines 55-98) with the LLM
collaborator output passed in as llm_response.  Extracts the instruction from
the current draft body, and when the post-increment count rework_count + 1
reaches 3 prepends the final-rework warning.  Returns (new body with marker,
extracted instruction). -/
def rework_draft (llm_response : String) (current_draft_body : String)
    (rework_count : Nat) : String × String :=
  let p := extract_rework_instruction current_draft_body
  let instruction := if p.1 = "" then "(no specific instruction provided)" else p.1
  let raw :=
    if rework_count + 1 ≥ 3 then finalReworkNotice ++ llm_response
    else llm_response
  (wrap_draft_with_marker raw, instruction)

/-- A Gmail thread (src/gmail/models.py, dataclass Thread). -/
structure GThread where
  id : String
  messages : List GMessage := []
deriving DecidableEq, Repr

/-- Thread.latest_message: the last message, none when the thread is empty. -/
def GThread.latest_message (t : GThread) : Option GMessage :=
  t.messages.getLast?

/-- A Gmail draft object (src/gmail/models.py, dataclass Draft). -/
structure GDraft where
  id : String
  message : Option GMessage := none
deriving DecidableEq, Repr

/-- The Gmail client collaborator as the lifecycle manager sees it, plus the
LLM draft collaborator output: get_thread and get_draft as oracle functions,
create_draft modelled by the id it returns (none when creation fails), and
the raw LLM response used for a rework. -/
structure GmailEnv where
  get_thread : String → Option GThread
  get_draft : String → Option GDraft
  create_draft_id : Option String := none
  llm_response : String := ""
  label_ids : List (String × String) := []

/-- Observable outcome of a lifecycle transition: the boolean result, the
emails table afterwards, how many draft-collaborator calls were made, the
body of any draft created, the drafts trashed, the event types logged, and
the exception, if one propagated out of the handler instead of a return
(result is meaningless in that case and kept false). -/
structure LifecycleOutcome where
  result : Bool
  emails : List EmailRecord
  draft_calls : Nat := 0
  created_draft_body : Option String := none
  trashed : List String := []
  events : List String := []
  raised : Option String := none
deriving Repr

/-- LifecycleManager.handle_sent_detection (src/lifecycle/manager.py lines
70-103): no record or falsy draft_id is a no-op returning false; if the
recorded draft still exists return false with no state change; otherwise
transition the conversation to sent and return true. -/
def handle_sent_detection (env : GmailEnv) (uid : Nat) (tid : String)
    (emails : List EmailRecord) : LifecycleOutcome :=
  match get_by_thread emails uid tid with
  | none => { result := false, emails := emails }
  | some email =>
    match email.draft_id with
    | none => { result := false, emails := emails }
    | some draft_id =>
      if draft_id = "" then { result := false, emails := emails }
      else
        match env.get_draft draft_id with
        | some _ => { result := false, emails := emails }
        | none =>
          { result := true,
            emails := update_status emails uid tid "sent",
            events := ["sent_detected"] }

/-- The current-draft-body lookup of handle_rework (src/lifecycle/manager.py
lines 179-184): the body of the draft recorded on the conversation, or the
empty string when there is no draft id, the draft is gone, or it has no
message. -/
def currentDraftBody (env : GmailEnv) (email : EmailRecord) : String :=
  match email.draft_id with
  | some d =>
    match env.get_draft d with
    | some dr => match dr.message with
                 | some m => m.body
                 | none => ""
    | none => ""
  | none => ""

/-- The old-draft trashing of handle_rework (lines 224-230). -/
def trashedDrafts (email : EmailRecord) : List String :=
  match email.draft_id with
  | some d => [d]
  | none => []

/-- The emails table has at most one row per (user_id, gmail_thread_id), the
unique key the repository updates by. -/
abbrev uniqueThreadKeys (emails : List EmailRecord) : Prop :=
  List.Pairwise
    (fun a b => ¬(a.user_id = b.user_id ∧ a.gmail_thread_id = b.gmail_thread_id))
    emails

/-- LifecycleManager.handle_rework (src/lifecycle/manager.py lines 139-267).
draft_engine_present models self.draft_engine being configured.  At
rework_count >= 3 the conversation is terminalized to skipped with no draft
call.  Below the cap, after the draft-body lookup and the thread checks
succeed, line 210 calls self.draft_engine.rework_draft with the
related_context, user_id and gmail_thread_id keyword arguments, none of
which DraftEngine.rework_draft (src/draft/engine.py lines 55-65) accepts:
the call raises TypeError before the collaborator body runs, so no draft is
regenerated, nothing is written, and the exception propagates to the worker.
The code from the trash_draft call onwards (lines 224-267) is unreachable. -/
def handle_rework (env : GmailEnv) (draft_engine_present : Bool) (uid : Nat)
    (tid : String) (emails : List EmailRecord) : LifecycleOutcome :=
  if !draft_engine_present then { result := false, emails := emails }
  else
    match get_by_thread emails uid tid with
    | none => { result := false, emails := emails }
    | some email =>
      let rework_count := email.rework_count
      if rework_count ≥ 3 then
        { result := true,
          emails := update_status emails uid tid "skipped",
          draft_calls := 0,
          events := ["rework_limit_reached"] }
      else
        let _current_draft_body := currentDraftBody env email
        match env.get_thread tid with
        | none => { result := false, emails := emails }
        | some thread =>
          match thread.latest_message with
          | none => { result := false, emails := emails }
          | some _ =>
            { result := false, emails := emails, draft_calls := 0,
              raised := some
                "TypeError: rework_draft got an unexpected keyword argument related_context" }

/-! Concrete fixtures used by witnesses and counterexamples. -/

/-- A single eligible pending job. -/
def c1Job : Job := { id := 3, job_type := "classify", user_id := 1, created_at := 4 }

/-- A store holding just c1Job. -/
def c1Store : Store := { jobs := [c1Job], next_id := 4 }

/-- A store with two pending jobs for the claim-sequence witness. -/
def c2Store : Store :=
  { jobs := [{ id := 1, job_type := "classify", user_id := 1, created_at := 1 },
             { id := 2, job_type := "rework", user_id := 1, created_at := 2 }],
    next_id := 3 }

/-- A freshly claimed job (attempts 1 of 3) whose owner turns out missing. -/
def c3Job : Job := { id := 1, job_type := "classify", user_id := 7, status := .running, attempts := 1, started_at := some 2 }

/-- The store holding c3Job. -/
def c3Store : Store := { jobs := [c3Job], next_id := 2 }

/-- A claimed job used by the amended-C3 witness. -/
def c3wJob : Job := { id := 4, job_type := "classify", user_id := 1, status := .running, attempts := 1, started_at := some 2 }

/-- The store holding c3wJob. -/
def c3wStore : Store := { jobs := [c3wJob], next_id := 5 }

/-- c3wJob after the retry the worker performs on a handler exception. -/
def c3wRetried : Job := { c3wJob with status := .pending, error_message := some "boom" }

/-- A labelsAdded API item: the rework label L_RW lands on message msgA of thread T. -/
def c4ItemA : ApiLabelItem := { message_id := "msgA", message_thread_id := "T", label_ids := ["L_RW"] }

/-- A labelsAdded API item: the rework label L_RW lands on message msgB of the same thread T. -/
def c4ItemB : ApiLabelItem := { message_id := "msgB", message_thread_id := "T", label_ids := ["L_RW"] }

/-- History record carrying the first label change. -/
def c4RecA : ApiHistory := { id := "1001", labels_added := [c4ItemA] }

/-- History record carrying the second label change. -/
def c4RecB : ApiHistory := { id := "1002", labels_added := [c4ItemB] }

/-- The user's label-name-to-id mapping. -/
def c4Labels : List (String × String) := [("done", "L_DONE"), ("rework", "L_RW"), ("needs_response", "L_NR")]

/-- The parsed batch: both label events of thread T in one feed-processing call. -/
def c4Batch : List HistoryRecord := [HistoryRecord.from_api c4RecA, HistoryRecord.from_api c4RecB]

/-- The sync-engine state after processing the batch against an empty store. -/
def c4Out : SyncSt := process_records none c4Labels 1 5 c4Batch { jobs := [], next_id := 1 }

/-- A pending classify job already queued for thread T5. -/
def c5Job : Job := { id := 1, job_type := "classify", user_id := 1, payload := { message_id := some "m0", thread_id := some "T5" } }

/-- The store holding c5Job. -/
def c5Store : Store := { jobs := [c5Job], next_id := 2 }

/-- A live inbox message in thread T5 returned by the full-sync search. -/
def c5Msg : GMessage := { id := "m1", thread_id := "T5" }

/-- A history record with one deleted message (forces one enqueue). -/
def c6Rec : HistoryRecord := { id := "2001", messages_deleted := ["mdel"] }

/-- An empty job store for the cursor-safety witness. -/
def c6Store : Store := { jobs := [], next_id := 1 }

/-- The incremental sync run whose very first enqueue write fails. -/
def c6Run : Store × String × Option String :=
  sync_user_incremental (.ok [c6Rec]) (some 0) none [] 1 none "h0" 5 c6Store

/-- A conversation already at the rework cap. -/
def email7 : EmailRecord := { user_id := 1, gmail_thread_id := "T7", status := "drafted", draft_id := some "D7", rework_count := 3 }

/-- The emails table holding email7. -/
def emails7 : List EmailRecord := [email7]

/-- A Gmail environment for the cap witness: thread lookups are never reached. -/
def env7 : GmailEnv := { get_thread := fun _ => none, get_draft := fun _ => none }

/-- The latest message of thread T8. -/
def msg8 : GMessage := { id := "m8", thread_id := "T8", body := "hello" }

/-- The thread the rework happens on. -/
def t8 : GThread := { id := "T8", messages := [msg8] }

/-- A Gmail environment where the thread exists, the old draft is gone, and
draft creation succeeds with id D2. -/
def env8 : GmailEnv := { get_thread := fun _ => some t8, get_draft := fun _ => none, create_draft_id := some "D2", llm_response := "GOOD" }

/-- A conversation at rework_count 2: the next rework is the last allowed one. -/
def email8 : EmailRecord := { user_id := 1, gmail_thread_id := "T8", status := "drafted", draft_id := some "D1", rework_count := 2 }

/-- The emails table holding email8. -/
def emails8 : List EmailRecord := [email8]

/-- A drafted conversation with a recorded draft id D9. -/
def email9 : EmailRecord := { user_id := 1, gmail_thread_id := "T9", status := "drafted", draft_id := some "D9" }

/-- The emails table holding email9. -/
def emails9 : List EmailRecord := [email9]

/-- A Gmail environment where the recorded draft still exists. -/
def env9 : GmailEnv := { get_thread := fun _ => none, get_draft := fun _ => some { id := "D9" } }

/-- A job already in the terminal failed state. -/
def c10Job : Job := { id := 1, job_type := "classify", user_id := 7, status := .failed, attempts := 3, error_message := some "boom", completed_at := some 2 }

/-- The store holding c10Job. -/
def c10Store : Store := { jobs := [c10Job], next_id := 2 }

/-- c10Job as complete(1) rewrites it at time 9. -/
def c10Done : Job := { c10Job with status := .completed, completed_at := some 9 }

/-! Helper lemmas about the claim_next selection. -/

/-- A selected row belongs to the table and satisfies the WHERE clause. -/
theorem selectClaim_mem {t? : Option String} :
    ∀ {l : List Job} {j : Job}, selectClaim t? l = some j →
      j ∈ l ∧ claimMatches t? j = true := by
  intro l
  induction l with
  | nil => intro j h; simp [selectClaim] at h
  | cons a rest ih =>
    intro j h
    simp only [selectClaim] at h
    cases hc : claimMatches t? a with
    | false =>
      rw [hc] at h
      simp only [Bool.false_eq_true, if_false] at h
      rcases ih h with ⟨h1, h2⟩
      exact ⟨List.mem_cons_of_mem _ h1, h2⟩
    | true =>
      rw [hc] at h
      simp only [if_true] at h
      cases hr : selectClaim t? rest with
      | none =>
        rw [hr] at h
        simp only [Option.some.injEq] at h
        exact ⟨h ▸ List.mem_cons_self a rest, h ▸ hc⟩
      | some b =>
        rw [hr] at h
        dsimp only at h
        by_cases hle : a.created_at ≤ b.created_at
        · rw [if_pos hle] at h
          simp only [Option.some.injEq] at h
          exact ⟨h ▸ List.mem_cons_self a rest, h ▸ hc⟩
        · rw [if_neg hle] at h
          simp only [Option.some.injEq] at h
          rcases ih (h ▸ hr) with ⟨h1, h2⟩
          exact ⟨List.mem_cons_of_mem _ h1, h2⟩

/-- When nothing is selected, no row satisfies the WHERE clause. -/
theorem selectClaim_none {t? : Option String} :
    ∀ {l : List Job}, selectClaim t? l = none →
      ∀ k ∈ l, claimMatches t? k = false := by
  intro l
  induction l with
  | nil => intro _ k hk; simp at hk
  | cons a rest ih =>
    intro h k hk
    simp only [selectClaim] at h
    cases hc : claimMatches t? a with
    | true =>
      rw [hc] at h
      simp only [if_true] at h
      cases hr : selectClaim t? rest with
      | none => rw [hr] at h; simp at h
      | some b =>
        rw [hr] at h
        dsimp only at h
        by_cases hle : a.created_at ≤ b.created_at
        · rw [if_pos hle] at h; simp at h
        · rw [if_neg hle] at h; simp at h
    | false =>
      rw [hc] at h
      simp only [Bool.false_eq_true, if_false] at h
      rcases List.mem_cons.1 hk with rfl | hk2
      · exact hc
      · exact ih h k hk2

/-- The selected row has the least created_at among eligible rows. -/
theorem selectClaim_le {t? : Option String} :
    ∀ {l : List Job} {j : Job}, selectClaim t? l = some j →
      ∀ k ∈ l, claimMatches t? k = true → j.created_at ≤ k.created_at := by
  intro l
  induction l with
  | nil => intro j h; simp [selectClaim] at h
  | cons a rest ih =>
    intro j h k hk hkm
    simp only [selectClaim] at h
    cases hc : claimMatches t? a with
    | false =>
      rw [hc] at h
      simp only [Bool.false_eq_true, if_false] at h
      rcases List.mem_cons.1 hk with rfl | hk2
      · rw [hkm] at hc; cases hc
      · exact ih h k hk2 hkm
    | true =>
      rw [hc] at h
      simp only [if_true] at h
      cases hr : selectClaim t? rest with
      | none =>
        rw [hr] at h
        simp only [Option.some.injEq] at h
        rcases List.mem_cons.1 hk with rfl | hk2
        · exact h ▸ Nat.le_refl _
        · exact absurd hkm (by simp [selectClaim_none hr k hk2])
      | some b =>
        rw [hr] at h
        dsimp only at h
        by_cases hle : a.created_at ≤ b.created_at
        · rw [if_pos hle] at h
          simp only [Option.some.injEq] at h
          subst h
          rcases List.mem_cons.1 hk with rfl | hk2
          · exact Nat.le_refl _
          · exact Nat.le_trans hle (ih hr k hk2 hkm)
        · rw [if_neg hle] at h
          simp only [Option.some.injEq] at h
          subst h
          rcases List.mem_cons.1 hk with rfl | hk2
          · exact Nat.le_of_lt (Nat.lt_of_not_le hle)
          · exact ih hr k hk2 hkm

/-- If some row is eligible, the selection is nonempty. -/
theorem selectClaim_isSome {t? : Option String} {l : List Job}
    (h : ∃ k ∈ l, claimMatches t? k = true) : (selectClaim t? l).isSome := by
  rcases h with ⟨k, hk, hkm⟩
  cases hr : selectClaim t? l with
  | some b => rfl
  | none => rw [selectClaim_none hr k hk] at hkm; cases hkm

/-- claim_next returning none leaves the store untouched. -/
theorem claim_next_none_eq {s : Store} {t? : Option String} {now : Nat} {s1 : Store}
    (h : s.claim_next t? now = (none, s1)) :
    s1 = s ∧ selectClaim t? s.jobs = none := by
  unfold Store.claim_next at h
  cases hr : selectClaim t? s.jobs with
  | none => rw [hr] at h; exact ⟨(Prod.mk.injEq _ _ _ _ ▸ h).2.symm, rfl⟩
  | some j => rw [hr] at h; simp at h

/-- claim_next returning a row: the row is the selected one, updated in place. -/
theorem claim_next_some_eq {s : Store} {t? : Option String} {now : Nat}
    {c : Job} {s1 : Store} (h : s.claim_next t? now = (some c, s1)) :
    ∃ j, selectClaim t? s.jobs = some j ∧
      c = { j with status := JobStatus.running, attempts := j.attempts + 1,
                   started_at := some now } ∧
      s1.jobs = s.jobs.map (fun k => if k.id = j.id then c else k) ∧
      s1.next_id = s.next_id := by
  unfold Store.claim_next at h
  cases hr : selectClaim t? s.jobs with
  | none => rw [hr] at h; simp at h
  | some j =>
    rw [hr] at h
    simp only [Prod.mk.injEq, Option.some.injEq] at h
    refine ⟨j, rfl, h.1.symm, ?_, ?_⟩
    · rw [← h.2, h.1]
    · rw [← h.2]

/-- The status encoded in the WHERE clause: an eligible row is pending. -/
theorem claimMatches_pending {t? : Option String} {j : Job}
    (h : claimMatches t? j = true) : j.status = JobStatus.pending := by
  simp only [claimMatches, Bool.and_eq_true, decide_eq_true_eq] at h
  exact h.1.1

/-- The claimed row replaces a pending row with the same id. -/
theorem claim_next_claimed_pending {s : Store} {t? : Option String} {now : Nat}
    {c : Job} {s1 : Store} (h : s.claim_next t? now = (some c, s1)) :
    ∃ j ∈ s.jobs, j.id = c.id ∧ j.status = JobStatus.pending := by
  rcases claim_next_some_eq h with ⟨j, hsel, hc, _, _⟩
  rcases selectClaim_mem hsel with ⟨hj, hjm⟩
  exact ⟨j, hj, by rw [hc], claimMatches_pending hjm⟩

/-- After the claim, every row carrying the claimed id is no longer pending. -/
theorem claim_next_id_running {s : Store} {t? : Option String} {now : Nat}
    {c : Job} {s1 : Store} (h : s.claim_next t? now = (some c, s1)) :
    ∀ k ∈ s1.jobs, k.id = c.id → k.status ≠ JobStatus.pending := by
  rcases claim_next_some_eq h with ⟨j, _, hc, hjobs, _⟩
  intro k hk hkid
  rw [hjobs] at hk
  rcases List.mem_map.1 hk with ⟨k0, _, hk0⟩
  by_cases hid : k0.id = j.id
  · rw [if_pos hid] at hk0
    rw [← hk0, hc]
    intro hcontra
    cases hcontra
  · rw [if_neg hid] at hk0
    exfalso
    exact hid (by rw [hk0, hkid, hc])

/-- claim_next preserves the absence of pending rows for a given id. -/
theorem claim_next_keeps_not_pending {s : Store} {t? : Option String} {now : Nat}
    {i : Nat} (h : ∀ k ∈ s.jobs, k.id = i → k.status ≠ JobStatus.pending) :
    ∀ o s1, s.claim_next t? now = (o, s1) →
      ∀ k ∈ s1.jobs, k.id = i → k.status ≠ JobStatus.pending := by
  intro o s1 heq
  cases o with
  | none =>
    rcases claim_next_none_eq heq with ⟨rfl, _⟩
    exact h
  | some c =>
    rcases claim_next_some_eq heq with ⟨j, _, hc, hjobs, _⟩
    intro k hk hkid
    rw [hjobs] at hk
    rcases List.mem_map.1 hk with ⟨k0, hk0mem, hk0⟩
    by_cases hid : k0.id = j.id
    · rw [if_pos hid] at hk0
      rw [← hk0, hc]
      intro hcontra
      cases hcontra
    · rw [if_neg hid] at hk0
      subst hk0
      exact h k0 hk0mem hkid

/-- Distinct ids make Job.id injective on the table. -/
theorem nodup_id_inj {l : List Job} (h : (l.map Job.id).Nodup) :
    ∀ a ∈ l, ∀ b ∈ l, a.id = b.id → a = b := by
  induction l with
  | nil => intro a ha; simp at ha
  | cons x rest ih =>
    simp only [List.map_cons, List.nodup_cons] at h
    intro a ha b hb hab
    rcases List.mem_cons.1 ha with rfl | ha2 <;>
      rcases List.mem_cons.1 hb with rfl | hb2
    · rfl
    · exact absurd (hab ▸ List.mem_map_of_mem Job.id hb2) h.1
    · exact absurd (hab ▸ List.mem_map_of_mem Job.id ha2) h.1
    · exact ih h.2 a ha2 b hb2 hab

/-- Strengthened induction for sequences of claim_next calls: if every id in I
has no pending row, the sequence returns pairwise distinct ids, none of them
in I. -/
theorem runClaims_aux :
    ∀ (ps : List (Option String × Nat)) (s : Store) (I : List Nat),
      (∀ i ∈ I, ∀ k ∈ s.jobs, k.id = i → k.status ≠ JobStatus.pending) →
      ((runClaims ps s).1.map Job.id).Nodup ∧
        ∀ i ∈ I, i ∉ (runClaims ps s).1.map Job.id := by
  intro ps
  induction ps with
  | nil =>
    intro s I _
    simp [runClaims]
  | cons p ps ih =>
    intro s I h
    simp only [runClaims]
    cases heq : s.claim_next p.1 p.2 with
    | mk o s1 =>
      cases o with
      | none =>
        obtain ⟨rfl, -⟩ := claim_next_none_eq heq
        exact ih s1 I h
      | some c =>
        have hinv : ∀ i ∈ (c.id :: I), ∀ k ∈ s1.jobs, k.id = i →
            k.status ≠ JobStatus.pending := by
          intro i hi
          rcases List.mem_cons.1 hi with rfl | hi2
          · exact claim_next_id_running heq
          · exact claim_next_keeps_not_pending (h i hi2) (some c) s1 heq
        obtain ⟨h1, h2⟩ := ih s1 (c.id :: I) hinv
        constructor
        · simp only [List.map_cons, List.nodup_cons]
          exact ⟨h2 c.id (List.mem_cons_self _ _), h1⟩
        · intro i hi
          simp only [List.map_cons, List.mem_cons]
          rintro (rfl | hrest)
          · rcases claim_next_claimed_pending heq with ⟨j, hjmem, hjid, hjp⟩
            exact h c.id hi j hjmem hjid hjp
          · exact h2 i (List.mem_cons_of_mem _ hi) hrest

/-- C1: claim_next is one atomic operation over the job store: when an
eligible row exists (status pending, attempts < max_attempts, optional type
filter) it returns an oldest-by-created_at such row updated to status running,
attempts incremented by exactly one and started_at set to now, rewriting only
that row of the table; when no row is eligible it returns none and the store
is unchanged. -/
theorem C1_claim_next_atomic (s : Store) (t? : Option String) (now : Nat) :
    (∀ s1, s.claim_next t? now = (none, s1) →
        s1 = s ∧ ∀ k ∈ s.jobs, claimMatches t? k = false) ∧
    (∀ c s1, s.claim_next t? now = (some c, s1) →
        ∃ j, j ∈ s.jobs ∧ claimMatches t? j = true ∧
          (∀ k ∈ s.jobs, claimMatches t? k = true →
            j.created_at ≤ k.created_at) ∧
          c = { j with status := JobStatus.running,
                       attempts := j.attempts + 1,
                       started_at := some now } ∧
          s1.jobs = s.jobs.map (fun k => if k.id = j.id then c else k) ∧
          s1.next_id = s.next_id) ∧
    ((∃ j ∈ s.jobs, claimMatches t? j = true) →
        (s.claim_next t? now).1.isSome = true) := by
  refine ⟨?_, ?_, ?_⟩
  · intro s1 h
    obtain ⟨rfl, hsel⟩ := claim_next_none_eq h
    exact ⟨rfl, selectClaim_none hsel⟩
  · intro c s1 h
    rcases claim_next_some_eq h with ⟨j, hsel, hc, hjobs, hnext⟩
    rcases selectClaim_mem hsel with ⟨hjmem, hjm⟩
    exact ⟨j, hjmem, hjm, selectClaim_le hsel, hc, hjobs, hnext⟩
  · intro hex
    have hsome := selectClaim_isSome hex
    unfold Store.claim_next
    cases hr : selectClaim t? s.jobs with
    | none => rw [hr] at hsome; cases hsome
    | some j => rfl

/-- C1 witness: on a store with one eligible pending job, claim_next returns
a job. -/
theorem C1_witness : (c1Store.claim_next none 9).1.isSome = true :=
  (C1_claim_next_atomic c1Store none 9).2.2 ⟨c1Job, by decide, by decide⟩

/-- C2: any linearized sequence of claim_next calls (each call is a single
atomic SQL statement, so every concurrent execution of K callers is one such
sequence) returns pairwise distinct job ids: no two callers ever receive the
same job, in particular K callers against fewer than K pending jobs. -/
theorem C2_concurrent_claims_distinct (ps : List (Option String × Nat))
    (s : Store) : ((runClaims ps s).1.map Job.id).Nodup :=
  (runClaims_aux ps s [] (by simp)).1

/-- C2 witness: three claim calls against a two-job queue return distinct ids. -/
theorem C2_witness :
    ((runClaims [(none, 5), (none, 6), (none, 7)] c2Store).1.map Job.id).Nodup := by
  have h := C2_concurrent_claims_distinct [(none, 5), (none, 6), (none, 7)] c2Store
  exact h

/-- C3 counterexample: a claimed job whose owner user is missing is failed
immediately by WorkerPool._process_job with attempts = 1 below
max_attempts = 3, so a job can reach the terminal failed status without its
attempts counter having reached max_attempts. -/
theorem C3_counterexample :
    c3Job.attempts < c3Job.max_attempts ∧
    (processJob false .success c3Job 9 c3Store).jobs.map Job.status =
      [JobStatus.failed] := by
  constructor
  · decide
  · decide

/-- C3 amended: for a job whose owner exists and whose type is recognized, a
handler failure makes the job failed iff its attempts counter (set at claim
time) has reached max_attempts, and otherwise returns it to pending; handler
success completes it; and a failed job is never returned by claim_next
(its row does not satisfy the pending filter). -/
theorem C3_amended_terminal_failure (s : Store) (j : Job) (msg : String)
    (now : Nat) (hknown : knownJobTypes.contains j.job_type = true) :
    (∀ k ∈ (processJob true (.raises msg) j now s).jobs, k.id = j.id →
        k.status = (if j.attempts < j.max_attempts then JobStatus.pending
                    else JobStatus.failed)) ∧
    (∀ k ∈ (processJob true .success j now s).jobs, k.id = j.id →
        k.status = JobStatus.completed) ∧
    ((s.jobs.map Job.id).Nodup →
      ∀ t? n2 c s2, s.claim_next t? n2 = (some c, s2) →
        ∀ k ∈ s.jobs, k.status = JobStatus.failed → c.id ≠ k.id) := by
  refine ⟨?_, ?_, ?_⟩
  · intro k hk hkid
    simp only [processJob, Bool.not_true, Bool.false_eq_true, if_false,
      hknown, Bool.not_false, if_true] at hk
    by_cases hatt : j.attempts < j.max_attempts
    · rw [if_pos hatt] at hk ⊢
      simp only [Store.retry] at hk
      rcases List.mem_map.1 hk with ⟨k0, _, hk0⟩
      by_cases hid : k0.id = j.id
      · rw [if_pos hid] at hk0
        rw [← hk0]
      · rw [if_neg hid] at hk0
        exact absurd (by rw [← hk0] at hkid; exact hkid) hid
    · rw [if_neg hatt] at hk ⊢
      simp only [Store.fail] at hk
      rcases List.mem_map.1 hk with ⟨k0, _, hk0⟩
      by_cases hid : k0.id = j.id
      · rw [if_pos hid] at hk0
        rw [← hk0]
      · rw [if_neg hid] at hk0
        exact absurd (by rw [← hk0] at hkid; exact hkid) hid
  · intro k hk hkid
    simp only [processJob, Bool.not_true, Bool.false_eq_true, if_false,
      hknown, Bool.not_false, if_true, Store.complete] at hk
    rcases List.mem_map.1 hk with ⟨k0, _, hk0⟩
    by_cases hid : k0.id = j.id
    · rw [if_pos hid] at hk0
      rw [← hk0]
    · rw [if_neg hid] at hk0
      exact absurd (by rw [← hk0] at hkid; exact hkid) hid
  · intro hnodup t? n2 c s2 hclaim k hk hkf hcontra
    rcases claim_next_claimed_pending hclaim with ⟨jp, hjpmem, hjpid, hjpp⟩
    have : jp = k := nodup_id_inj hnodup jp hjpmem k hk (by rw [hjpid, hcontra])
    rw [this, hkf] at hjpp
    cases hjpp

/-- C3 amended witness: a handler exception at attempts 1 of 3 returns the
job to pending. -/
theorem C3_witness : c3wRetried.status =
    (if c3wJob.attempts < c3wJob.max_attempts then JobStatus.pending
     else JobStatus.failed) :=
  (C3_amended_terminal_failure c3wStore c3wJob "boom" 9 (by decide)).1
    c3wRetried (by decide) (by decide)

/-- C10 counterexample: complete(id) on a job already in the terminal failed
status is not a no-op: the row is rewritten to completed, so the claimed
terminal no-op guard does not exist. -/
theorem C10_counterexample :
    c10Job.status = JobStatus.failed ∧
    (c10Store.complete 1 9).jobs.map Job.status = [JobStatus.completed] ∧
    (c10Store.complete 1 9).jobs ≠ c10Store.jobs := by
  refine ⟨by decide, by decide, by decide⟩

/-- C10 amended: complete(id) sets status = completed and completed_at = now
on every row with the given id unconditionally (no terminal no-op guard), and
leaves every other row unchanged. -/
theorem C10_amended_complete_unconditional (s : Store) (i now : Nat) :
    (∀ k ∈ (s.complete i now).jobs, k.id = i →
        k.status = JobStatus.completed ∧ k.completed_at = some now) ∧
    (∀ k ∈ s.jobs, k.id ≠ i → k ∈ (s.complete i now).jobs) := by
  constructor
  · intro k hk hkid
    simp only [Store.complete] at hk
    rcases List.mem_map.1 hk with ⟨k0, _, hk0⟩
    by_cases hid : k0.id = i
    · rw [if_pos hid] at hk0
      rw [← hk0]
      exact ⟨rfl, rfl⟩
    · rw [if_neg hid] at hk0
      exact absurd (by rw [← hk0] at hkid; exact hkid) hid
  · intro k hk hkid
    simp only [Store.complete]
    have : (if k.id = i then
        { k with status := JobStatus.completed, completed_at := some now }
      else k) = k := if_neg hkid
    exact this ▸ List.mem_map_of_mem _ hk

/-- C10 amended witness: completing the already-failed job rewrites it. -/
theorem C10_witness :
    c10Done.status = JobStatus.completed ∧ c10Done.completed_at = some 9 :=
  (C10_amended_complete_unconditional c10Store 1 9).1 c10Done (by decide)
    (by decide)

/-- C4: evaluating the feed processor on the claim's own concrete scenario —
two labels_added records for messages msgA and msgB of the same thread T, both
carrying the rework label, in one batch — enqueues TWO rework jobs, not one:
HistoryRecord.from_api omits the threadId of the label items, so the dedup key
item.get falls back to the message id, although the code comments document
per-thread deduplication. -/
theorem C4_duplicate_rework_jobs :
    c4Out.store.jobs.map
        (fun j => (j.job_type, j.payload.message_id, j.payload.thread_id)) =
      [("rework", some "msgA", none), ("rework", some "msgB", none)] ∧
    (c4Out.store.jobs.filter (fun j => decide (j.job_type = "rework"))).length
      = 2 := by
  constructor
  · decide
  · decide

/-- Jobs present before the full-sync loop survive it: the loop only appends. -/
theorem fullSyncLoop_preserves (uid now : Nat) (emails : List EmailRecord) :
    ∀ (msgs : List GMessage) (st : Store) (res : SyncResult) (j : Job),
      j ∈ st.jobs → j ∈ (fullSyncLoop uid now emails msgs st res).1.jobs := by
  intro msgs
  induction msgs with
  | nil => intro st res j hj; simpa [fullSyncLoop] using hj
  | cons msg rest ih =>
    intro st res j hj
    simp only [fullSyncLoop]
    by_cases h1 : (get_by_thread emails uid msg.thread_id).isSome = true
    · rw [if_pos h1]
      exact ih st res j hj
    · rw [if_neg h1]
      by_cases h2 : has_pending_for_thread "classify" uid msg.thread_id st.jobs
          = true
      · rw [if_pos h2]
        exact ih st res j hj
      · rw [if_neg h2]
        apply ih
        simp only [Store.enqueue]
        exact List.mem_append_left _ hj

/-- A pending classify job for a thread stays visible through the loop. -/
theorem fullSyncLoop_pending_mono (uid now : Nat) (emails : List EmailRecord)
    (msgs : List GMessage) (st : Store) (res : SyncResult) (T : String)
    (h : has_pending_for_thread "classify" uid T st.jobs = true) :
    has_pending_for_thread "classify" uid T
      (fullSyncLoop uid now emails msgs st res).1.jobs = true := by
  simp only [has_pending_for_thread, List.any_eq_true] at h ⊢
  rcases h with ⟨j, hj, hcond⟩
  exact ⟨j, fullSyncLoop_preserves uid now emails msgs st res j hj, hcond⟩

/-- Covered threads (existing conversation record or pending classify job at
loop entry) never get a new classify job from the loop. -/
theorem fullSyncLoop_no_new_for_covered (uid now : Nat)
    (emails : List EmailRecord) (T : String) :
    ∀ (msgs : List GMessage) (st : Store) (res : SyncResult),
      ((get_by_thread emails uid T).isSome = true ∨
        has_pending_for_thread "classify" uid T st.jobs = true) →
      ∀ j ∈ (fullSyncLoop uid now emails msgs st res).1.jobs,
        j.job_type = "classify" → j.user_id = uid →
          j.payload.thread_id = some T → j ∈ st.jobs := by
  intro msgs
  induction msgs with
  | nil =>
    intro st res _ j hj _ _ _
    simpa [fullSyncLoop] using hj
  | cons msg rest ih =>
    intro st res hcov j hj hjt hju hjT
    simp only [fullSyncLoop] at hj
    by_cases h1 : (get_by_thread emails uid msg.thread_id).isSome = true
    · rw [if_pos h1] at hj
      exact ih st res hcov j hj hjt hju hjT
    · rw [if_neg h1] at hj
      by_cases h2 : has_pending_for_thread "classify" uid msg.thread_id st.jobs
          = true
      · rw [if_pos h2] at hj
        exact ih st res hcov j hj hjt hju hjT
      · rw [if_neg h2] at hj
        have hcov1 : (get_by_thread emails uid T).isSome = true ∨
            has_pending_for_thread "classify" uid T
              ((st.enqueue "classify" uid
                { message_id := some msg.id, thread_id := some msg.thread_id }
                now).1).jobs = true := by
          rcases hcov with hl | hr
          · exact Or.inl hl
          · refine Or.inr ?_
            simp only [has_pending_for_thread, List.any_eq_true,
              Store.enqueue] at hr ⊢
            rcases hr with ⟨k, hk, hkcond⟩
            exact ⟨k, List.mem_append_left _ hk, hkcond⟩
        have hj1 := ih _ _ hcov1 j hj hjt hju hjT
        simp only [Store.enqueue, List.mem_append, List.mem_singleton] at hj1
        rcases hj1 with hj2 | rfl
        · exact hj2
        · exfalso
          simp only [Option.some.injEq] at hjT
          rcases hcov with hl | hr
          · rw [hjT] at h1
            exact h1 hl
          · rw [hjT] at h2
            exact h2 hr

/-- After one full-sync loop, every searched message has its thread covered:
a conversation record existed, or a pending classify job is in the store. -/
theorem fullSyncLoop_covers (uid now : Nat) (emails : List EmailRecord) :
    ∀ (msgs : List GMessage) (st : Store) (res : SyncResult),
      ∀ msg ∈ msgs,
        (get_by_thread emails uid msg.thread_id).isSome = true ∨
        has_pending_for_thread "classify" uid msg.thread_id
          (fullSyncLoop uid now emails msgs st res).1.jobs = true := by
  intro msgs
  induction msgs with
  | nil => intro st res msg hm; simp at hm
  | cons head rest ih =>
    intro st res msg hm
    simp only [fullSyncLoop]
    by_cases h1 : (get_by_thread emails uid head.thread_id).isSome = true
    · rw [if_pos h1]
      rcases List.mem_cons.1 hm with rfl | hm2
      · exact Or.inl h1
      · exact ih st res msg hm2
    · rw [if_neg h1]
      by_cases h2 : has_pending_for_thread "classify" uid head.thread_id
          st.jobs = true
      · rw [if_pos h2]
        rcases List.mem_cons.1 hm with rfl | hm2
        · exact Or.inr (fullSyncLoop_pending_mono uid now emails rest st res
            msg.thread_id h2)
        · exact ih st res msg hm2
      · rw [if_neg h2]
        rcases List.mem_cons.1 hm with rfl | hm2
        · refine Or.inr (fullSyncLoop_pending_mono uid now emails rest _ _
            msg.thread_id ?_)
          simp only [has_pending_for_thread, List.any_eq_true, Store.enqueue]
          refine ⟨_, List.mem_append_right _ (List.mem_singleton_self _), ?_⟩
          simp
        · exact ih _ _ msg hm2

/-- A loop over messages whose threads are all covered changes nothing. -/
theorem fullSyncLoop_skip_all (uid now : Nat) (emails : List EmailRecord) :
    ∀ (msgs : List GMessage) (st : Store) (res : SyncResult),
      (∀ msg ∈ msgs,
        (get_by_thread emails uid msg.thread_id).isSome = true ∨
        has_pending_for_thread "classify" uid msg.thread_id st.jobs = true) →
      fullSyncLoop uid now emails msgs st res = (st, res) := by
  intro msgs
  induction msgs with
  | nil => intro st res _; simp [fullSyncLoop]
  | cons head rest ih =>
    intro st res hcov
    simp only [fullSyncLoop]
    by_cases h1 : (get_by_thread emails uid head.thread_id).isSome = true
    · rw [if_pos h1]
      exact ih st res fun msg hm => hcov msg (List.mem_cons_of_mem _ hm)
    · rw [if_neg h1]
      have h2 : has_pending_for_thread "classify" uid head.thread_id st.jobs
          = true := by
        rcases hcov head (List.mem_cons_self _ _) with hl | hr
        · exact absurd hl h1
        · exact hr
      rw [if_pos h2]
      exact ih st res fun msg hm => hcov msg (List.mem_cons_of_mem _ hm)

/-- C5: full reconciliation never enqueues a classify job for a thread that
already has a conversation record or a pending classify job (every classify
job for such a thread in the output store was already there), and a second
full reconciliation over the same search results with no intervening changes
leaves the job store exactly as the first left it. -/
theorem C5_full_sync_no_duplicate_classify (uid now now2 : Nat)
    (messages : List GMessage) (p p2 : String) (emails : List EmailRecord)
    (store : Store) :
    (∀ T, ((get_by_thread emails uid T).isSome = true ∨
        has_pending_for_thread "classify" uid T store.jobs = true) →
      ∀ j ∈ (full_sync uid messages p now emails store).1.jobs,
        j.job_type = "classify" → j.user_id = uid →
          j.payload.thread_id = some T → j ∈ store.jobs) ∧
    (full_sync uid messages p2 now2 emails
        (full_sync uid messages p now emails store).1).1 =
      (full_sync uid messages p now emails store).1 := by
  constructor
  · intro T hcov j hj hjt hju hjT
    simp only [full_sync] at hj
    exact fullSyncLoop_no_new_for_covered uid now emails T messages store {}
      hcov j hj hjt hju hjT
  · simp only [full_sync]
    rw [fullSyncLoop_skip_all uid now2 emails messages
      (fullSyncLoop uid now emails messages store {}).1 {}
      (fun msg hm => fullSyncLoop_covers uid now emails messages store {}
        msg hm)]

/-- C5 witness: with a pending classify job for thread T5 already queued, a
full sync over a message in T5 adds nothing — the job found afterwards is the
pre-existing one. -/
theorem C5_witness : c5Job ∈ c5Store.jobs :=
  (C5_full_sync_no_duplicate_classify 1 5 6 [c5Msg] "h1" "h2" [] c5Store).1
    "T5" (Or.inr (by decide)) c5Job (by decide) (by decide) (by decide)
    (by decide)

/-- C6: in an incremental feed-processing call, the stored cursor is left at
its old value whenever the history fetch or any job enqueue fails; it moves to
the externally-notified position or the last record id only on a run in which
the whole batch was processed and every derived job enqueued. -/
theorem C6_cursor_advance_safety (fetch : Except String (List HistoryRecord))
    (failAt : Option Nat) (router : Option (GMessage → RouteDecision))
    (label_ids : List (String × String)) (uid : Nat) (notified : Option String)
    (lh : String) (now : Nat) (store : Store) :
    ((sync_user_incremental fetch failAt router label_ids uid notified lh now
        store).2.2.isSome = true →
      (sync_user_incremental fetch failAt router label_ids uid notified lh now
        store).2.1 = lh) ∧
    ((sync_user_incremental fetch failAt router label_ids uid notified lh now
        store).2.2 = none →
      ∃ records, fetch = .ok records ∧
        ((records = [] ∧
          (sync_user_incremental fetch failAt router label_ids uid notified lh
            now store).1 = store ∧
          (sync_user_incremental fetch failAt router label_ids uid notified lh
            now store).2.1 = notified.getD lh) ∨
         (∃ st1, processRecords failAt router label_ids uid now records
              { store := store } = .ok st1 ∧
            (sync_user_incremental fetch failAt router label_ids uid notified
              lh now store).1 = st1.store ∧
            (sync_user_incremental fetch failAt router label_ids uid notified
              lh now store).2.1 =
              notified.getD ((records.getLast?.map HistoryRecord.id).getD
                lh)))) := by
  cases fetch with
  | error e =>
    refine ⟨fun _ => rfl, fun hc => ?_⟩
    simp [sync_user_incremental] at hc
  | ok records =>
    simp only [sync_user_incremental]
    by_cases hemp : records.isEmpty = true
    · rw [if_pos hemp]
      refine ⟨fun hc => by simp at hc, fun _ => ?_⟩
      exact ⟨records, rfl, Or.inl ⟨List.isEmpty_iff.1 hemp, rfl, rfl⟩⟩
    · rw [if_neg hemp]
      cases hpr : processRecords failAt router label_ids uid now records
          { store := store } with
      | error st =>
        refine ⟨fun _ => rfl, fun hc => ?_⟩
        simp at hc
      | ok st1 =>
        refine ⟨fun hc => by simp at hc, fun _ => ?_⟩
        exact ⟨records, rfl, Or.inr ⟨st1, hpr, rfl, rfl⟩⟩

/-- C6 witness: a run whose first enqueue write fails reports the error and
leaves the cursor at its previous value h0. -/
theorem C6_witness : c6Run.2.1 = "h0" :=
  (C6_cursor_advance_safety (.ok [c6Rec]) (some 0) none [] 1 none "h0" 5
    c6Store).1 (by decide)

/-- The record found by get_by_thread is in the table and matches the key. -/
theorem get_by_thread_spec {emails : List EmailRecord} {uid : Nat}
    {tid : String} {email : EmailRecord}
    (h : get_by_thread emails uid tid = some email) :
    email ∈ emails ∧ email.user_id = uid ∧ email.gmail_thread_id = tid := by
  have hmem := List.mem_of_find?_eq_some h
  have hpred := List.find?_some h
  simp only [Bool.and_eq_true, decide_eq_true_eq] at hpred
  exact ⟨hmem, hpred.1, hpred.2⟩

/-- With unique (user_id, thread_id) keys, any row matching the key of a
found record is that record. -/
theorem get_by_thread_unique {uid : Nat} {tid : String}
    {emails : List EmailRecord} {email : EmailRecord}
    (hpw : uniqueThreadKeys emails)
    (h : get_by_thread emails uid tid = some email) :
    ∀ e ∈ emails, e.user_id = uid → e.gmail_thread_id = tid → e = email := by
  intro e he hu ht
  rcases get_by_thread_spec h with ⟨hmem, hu2, ht2⟩
  by_contra hne
  have hsym : Symmetric (fun a b : EmailRecord =>
      ¬(a.user_id = b.user_id ∧ a.gmail_thread_id = b.gmail_thread_id)) :=
    fun _ _ hab hba => hab ⟨hba.1.symm, hba.2.symm⟩
  exact List.Pairwise.forall hsym hpw he hmem hne
    ⟨hu.trans hu2.symm, ht.trans ht2.symm⟩

/-- update_status rewrites the status of every row matching the key. -/
theorem update_status_match {emails : List EmailRecord} {uid : Nat}
    {tid status : String} :
    ∀ e ∈ update_status emails uid tid status,
      e.user_id = uid → e.gmail_thread_id = tid → e.status = status := by
  intro e he hu ht
  simp only [update_status] at he
  rcases List.mem_map.1 he with ⟨e0, _, he0⟩
  by_cases hm : e0.user_id = uid ∧ e0.gmail_thread_id = tid
  · rw [if_pos hm] at he0
    rw [← he0]
  · rw [if_neg hm] at he0
    subst he0
    exact absurd ⟨hu, ht⟩ hm

/-- update_status never touches rework_count. -/
theorem update_status_count {emails : List EmailRecord} {uid : Nat}
    {tid status : String} (hbound : ∀ e ∈ emails, e.rework_count ≤ 3) :
    ∀ e ∈ update_status emails uid tid status, e.rework_count ≤ 3 := by
  intro e he
  simp only [update_status] at he
  rcases List.mem_map.1 he with ⟨e0, he0mem, he0⟩
  by_cases hm : e0.user_id = uid ∧ e0.gmail_thread_id = tid
  · rw [if_pos hm] at he0
    rw [← he0]
    exact hbound e0 he0mem
  · rw [if_neg hm] at he0
    subst he0
    exact hbound e0 he0mem

/-- The first component of rework_draft: the marker-wrapped raw LLM output,
with the final-rework warning prepended exactly when the post-increment count
reaches 3. -/
theorem rework_draft_body (llm cdb : String) (count : Nat) :
    (rework_draft llm cdb count).1 =
      wrap_draft_with_marker
        (if count + 1 ≥ 3 then finalReworkNotice ++ llm else llm) := rfl

/-- The branch handle_rework takes below the cap, once the thread lookups
succeed: the rework_draft call at src/lifecycle/manager.py line 210 raises
TypeError (it passes keyword arguments DraftEngine.rework_draft does not
accept), so the handler makes no draft-collaborator call and writes nothing. -/
theorem handle_rework_below_cap {env : GmailEnv} {uid : Nat} {tid : String}
    {emails : List EmailRecord} {email : EmailRecord} {t : GThread}
    {m : GMessage}
    (hfind : get_by_thread emails uid tid = some email)
    (hlt : email.rework_count < 3)
    (hthread : env.get_thread tid = some t)
    (hlatest : t.latest_message = some m) :
    handle_rework env true uid tid emails =
      { result := false, emails := emails, draft_calls := 0,
        raised := some
          "TypeError: rework_draft got an unexpected keyword argument related_context" } := by
  unfold handle_rework
  rw [hfind]
  dsimp only
  rw [if_neg (by simp [Bool.not_true]), if_neg (not_le.mpr hlt), hthread]
  dsimp only
  rw [hlatest]

/-- The branch handle_rework takes at the cap: skipped, no draft call. -/
theorem handle_rework_at_cap {env : GmailEnv} {uid : Nat} {tid : String}
    {emails : List EmailRecord} {email : EmailRecord}
    (hfind : get_by_thread emails uid tid = some email)
    (hcap : email.rework_count ≥ 3) :
    handle_rework env true uid tid emails =
      { result := true,
        emails := update_status emails uid tid "skipped",
        draft_calls := 0,
        events := ["rework_limit_reached"] } := by
  unfold handle_rework
  rw [hfind]
  dsimp only
  rw [if_neg (by simp [Bool.not_true]), if_pos hcap]

/-- C7: a rework request on a conversation whose rework_count is already at
the cap of 3 returns true, terminalizes the conversation to skipped, and makes
zero calls to the draft collaborator; moreover the rework path never pushes a
rework_count above 3. -/
theorem C7_rework_cap (env : GmailEnv) (uid : Nat) (tid : String)
    (emails : List EmailRecord) :
    (∀ email, get_by_thread emails uid tid = some email →
        email.rework_count ≥ 3 →
        (handle_rework env true uid tid emails).result = true ∧
        (handle_rework env true uid tid emails).draft_calls = 0 ∧
        ∀ e ∈ (handle_rework env true uid tid emails).emails,
          e.user_id = uid → e.gmail_thread_id = tid → e.status = "skipped") ∧
    (∀ dep : Bool, uniqueThreadKeys emails →
        (∀ e ∈ emails, e.rework_count ≤ 3) →
        ∀ e ∈ (handle_rework env dep uid tid emails).emails,
          e.rework_count ≤ 3) := by
  constructor
  · intro email hfind hcap
    rw [handle_rework_at_cap hfind hcap]
    exact ⟨rfl, rfl, update_status_match⟩
  · intro dep _hpw hbound e he
    cases dep with
    | false =>
      simp only [handle_rework, Bool.not_false, if_true] at he
      exact hbound e he
    | true =>
      cases hfind : get_by_thread emails uid tid with
      | none =>
        simp only [handle_rework, Bool.not_true, Bool.false_eq_true, if_false,
          hfind] at he
        exact hbound e he
      | some email =>
        by_cases hcap : email.rework_count ≥ 3
        · rw [handle_rework_at_cap hfind hcap] at he
          exact update_status_count hbound e he
        · have hlt : email.rework_count < 3 := Nat.lt_of_not_le hcap
          cases hthread : env.get_thread tid with
          | none =>
            simp only [handle_rework, Bool.not_true, Bool.false_eq_true,
              if_false, hfind, hthread, not_le.mpr hlt] at he
            exact hbound e he
          | some t =>
            cases hlatest : t.latest_message with
            | none =>
              simp only [handle_rework, Bool.not_true, Bool.false_eq_true,
                if_false, hfind, hthread, hlatest, not_le.mpr hlt] at he
              exact hbound e he
            | some m =>
              rw [handle_rework_below_cap hfind hlt hthread hlatest] at he
              exact hbound e he

/-- C7 witness: at rework_count 3, a rework request returns true with zero
draft-collaborator calls. -/
theorem C7_witness :
    (handle_rework env7 true 1 "T7" emails7).result = true ∧
    (handle_rework env7 true 1 "T7" emails7).draft_calls = 0 := by
  have h := (C7_rework_cap env7 1 "T7" emails7).1 email7 (by decide) (by decide)
  exact ⟨h.1, h.2.1⟩

/-- C8: the claim fails on the code: at rework_count 2 the handler raises
TypeError at the rework_draft call (src/lifecycle/manager.py line 210 passes
keyword arguments DraftEngine.rework_draft does not accept), so no draft is
regenerated, no notice is produced, and the conversation table is untouched —
the count stays 2.  The last conjunct exhibits the unreached notice logic
that DraftEngine.rework_draft itself implements for a post-increment count
of 3, showing the claimed behavior is the intent of the code. -/
theorem C8_rework_raises_before_increment :
    (handle_rework env8 true 1 "T8" emails8).raised =
      some "TypeError: rework_draft got an unexpected keyword argument related_context" ∧
    (handle_rework env8 true 1 "T8" emails8).draft_calls = 0 ∧
    (handle_rework env8 true 1 "T8" emails8).emails = emails8 ∧
    email8.rework_count = 2 ∧
    (rework_draft "GOOD" "" 2).1 =
      wrap_draft_with_marker (finalReworkNotice ++ "GOOD") := by
  refine ⟨by decide, by decide, by decide, by decide, ?_⟩
  rw [rework_draft_body, if_pos (by omega : 2 + 1 ≥ 3)]

/-- C9: sent detection on a conversation with a recorded draft id returns
false and leaves the table unchanged while the provider still returns the
draft; once the draft no longer exists it returns true and the conversation
status becomes sent. -/
theorem C9_sent_detection (env : GmailEnv) (uid : Nat) (tid : String)
    (emails : List EmailRecord) (email : EmailRecord) (did : String)
    (hfind : get_by_thread emails uid tid = some email)
    (hdid : email.draft_id = some did) (hne : did ≠ "") :
    ((env.get_draft did).isSome = true →
        (handle_sent_detection env uid tid emails).result = false ∧
        (handle_sent_detection env uid tid emails).emails = emails) ∧
    (env.get_draft did = none →
        (handle_sent_detection env uid tid emails).result = true ∧
        ∀ e ∈ (handle_sent_detection env uid tid emails).emails,
          e.user_id = uid → e.gmail_thread_id = tid → e.status = "sent") := by
  constructor
  · intro hex
    obtain ⟨d, hd⟩ := Option.isSome_iff_exists.1 hex
    have heq : handle_sent_detection env uid tid emails =
        { result := false, emails := emails } := by
      unfold handle_sent_detection
      rw [hfind]
      dsimp only
      rw [hdid]
      dsimp only
      rw [if_neg hne, hd]
    rw [heq]
    exact ⟨rfl, rfl⟩
  · intro hnone
    have heq : handle_sent_detection env uid tid emails =
        { result := true, emails := update_status emails uid tid "sent",
          events := ["sent_detected"] } := by
      unfold handle_sent_detection
      rw [hfind]
      dsimp only
      rw [hdid]
      dsimp only
      rw [if_neg hne, hnone]
    rw [heq]
    exact ⟨rfl, update_status_match⟩

/-- C9 witness: with the recorded draft still present, sent detection is a
no-op returning false. -/
theorem C9_witness :
    (handle_sent_detection env9 1 "T9" emails9).result = false ∧
    (handle_sent_detection env9 1 "T9" emails9).emails = emails9 :=
  (C9_sent_detection env9 1 "T9" emails9 email9 "D9" (by decide) (by decide)
    (by decide)).1 (by decide)

end GA


